import Mathlib

set_option linter.unusedVariables false

/-!
Shallow embedding of the `unittest.c` test-harness library
(files `src/unittest.h`, `src/unittest.c`).

Modelling conventions:
* `test_status_t` is the C enum of six outcome kinds.
* C `int` counters are non-negative throughout the library (they start at 0
  and are only incremented), so they are modelled as `Nat`; the `int` return
  codes 0 / -1 of the fallible operations are modelled as `Int`.
* A `test_case_t`'s `results` array is modelled as the list of its recorded
  outcomes (the initialized prefix of length `result_count`), together with
  the separately tracked `result_capacity` field.  The `next` sibling
  pointers of cases and suites are modelled by keeping each chain as a
  `List` in its owner (`test_cases`, `child_suites`, `root_suite`).
* `realloc` failure is nondeterministic in C; it is resolved by an explicit
  allocation oracle argument (`alloc : Bool` for a single call, or
  `alloc : Nat → Bool` indexed by loop iteration for the varargs helper and
  a single `Bool` for a whole run).
* A test function is a nullary pure function returning a `test_status_t`;
  it is modelled by the status value it returns (`Option` for a NULL
  function pointer).
* Output produced with `printf` is modelled as the `String` a call appends
  to standard output; `print_test_results` returns the mutated runner
  together with that string.
-/

inductive test_status_t where
  | STATUS_SUCCESS
  | STATUS_UNEXPECTED_OUTPUT
  | STATUS_EXPECTED_BUILD_ERROR
  | STATUS_BUILD_ERROR
  | STATUS_EXPECTED_RUNTIME_ERROR
  | STATUS_RUNTIME_ERROR
deriving DecidableEq, Repr

open test_status_t

@[ext]
structure test_stats_t where
  success_count : Nat
  unexpected_output_count : Nat
  expected_build_error_count : Nat
  build_error_count : Nat
  expected_runtime_error_count : Nat
  runtime_error_count : Nat
deriving DecidableEq, Repr

/-- The all-zero statistics record produced by `memset(&stats, 0, sizeof ...)`. -/
def zero_stats : test_stats_t := ⟨0, 0, 0, 0, 0, 0⟩

structure test_case_t where
  name : String
  test_func : Option test_status_t
  results : List test_status_t
  result_count : Nat
  result_capacity : Nat
deriving DecidableEq, Repr

inductive test_suite_t where
  | mk (name : String) (test_cases : List test_case_t)
       (child_suites : List test_suite_t) (stats : test_stats_t)

def test_suite_t.name : test_suite_t → String
  | ⟨n, _, _, _⟩ => n

def test_suite_t.test_cases : test_suite_t → List test_case_t
  | ⟨_, cs, _, _⟩ => cs

def test_suite_t.child_suites : test_suite_t → List test_suite_t
  | ⟨_, _, ch, _⟩ => ch

def test_suite_t.stats : test_suite_t → test_stats_t
  | ⟨_, _, _, st⟩ => st

structure test_runner_t where
  root_suite : List test_suite_t
  global_stats : test_stats_t

/-- `test_case_create`: a fresh case has an empty result log and both
`result_count` and `result_capacity` zero (the success path of the C
constructor; allocation failure of the object itself returns NULL and
constructs nothing). -/
def test_case_create (name : String) (test_func : Option test_status_t) : test_case_t :=
  { name := name
    test_func := test_func
    results := []
    result_count := 0
    result_capacity := 0 }

/-- `test_suite_create`: fresh suite, empty chains, zeroed stats. -/
def test_suite_create (name : String) : test_suite_t :=
  ⟨name, [], [], zero_stats⟩

/-- `test_runner_create`: no root suite, zeroed global stats. -/
def test_runner_create : test_runner_t :=
  { root_suite := [], global_stats := zero_stats }

/-- `INITIAL_RESULT_CAPACITY` from unittest.c. -/
def INITIAL_RESULT_CAPACITY : Nat := 8

/-- `test_case_add_result` on a non-NULL case.  `alloc` resolves whether the
`realloc` in the growth branch succeeds.  Returns the C return code together
with the state of the case after the call. -/
def test_case_add_result (alloc : Bool) (tc : test_case_t) (status : test_status_t) :
    Int × test_case_t :=
  if tc.result_count ≥ tc.result_capacity then
    let new_capacity := if tc.result_capacity = 0 then INITIAL_RESULT_CAPACITY
                        else tc.result_capacity * 2
    if alloc then
      let tc1 := { tc with result_capacity := new_capacity }
      (0, { tc1 with results := tc1.results ++ [status],
                     result_count := tc1.result_count + 1 })
    else
      (-1, tc)
  else
    (0, { tc with results := tc.results ++ [status],
                  result_count := tc.result_count + 1 })

/-- The `for (i = 0; i < count; i++)` loop body of `test_case_add_results_va`:
appends the statuses one by one, returning -1 (with the state reached so
far) as soon as one append fails.  `i` is the loop index feeding the
allocation oracle. -/
def add_results_loop (alloc : Nat → Bool) (i : Nat) (tc : test_case_t) :
    List test_status_t → Int × test_case_t
  | [] => (0, tc)
  | status :: rest =>
    let r := test_case_add_result (alloc i) tc status
    if r.1 ≠ 0 then (-1, r.2)
    else add_results_loop alloc (i + 1) r.2 rest

/-- `test_case_add_results_va`.  The variadic argument pack is modelled by
`args`; the loop reads exactly `count` of them. -/
def test_case_add_results_va (alloc : Nat → Bool) (tc : Option test_case_t)
    (count : Int) (args : List test_status_t) : Int × Option test_case_t :=
  match tc with
  | none => (-1, none)
  | some c =>
    if count ≤ 0 then (-1, some c)
    else
      let r := add_results_loop alloc 0 c (args.take count.toNat)
      (r.1, some r.2)

/-- The tail-append of the C sibling-chain walk
(`while (current->next) current = current->next; current->next = x`). -/
def chain_append {α : Type} (l : List α) (x : α) : List α :=
  match l with
  | [] => [x]
  | y :: rest => y :: chain_append rest x

/-- `test_suite_add_child`: no-op when either pointer is NULL, otherwise
appends `child` at the tail of `parent->child_suites`. -/
def test_suite_add_child (parent child : Option test_suite_t) : Option test_suite_t :=
  match parent, child with
  | some ⟨n, cs, ch, st⟩, some c => some ⟨n, cs, chain_append ch c, st⟩
  | _, _ => parent

/-- `test_suite_add_test_case`: no-op when either pointer is NULL, otherwise
appends `tcase` at the tail of `suite->test_cases`. -/
def test_suite_add_test_case (suite : Option test_suite_t) (tcase : Option test_case_t) :
    Option test_suite_t :=
  match suite, tcase with
  | some ⟨n, cs, ch, st⟩, some c => some ⟨n, chain_append cs c, ch, st⟩
  | _, _ => suite

/-- `test_runner_add_suite`: no-op when either pointer is NULL, otherwise
appends `suite` at the tail of the `root_suite` chain. -/
def test_runner_add_suite (runner : Option test_runner_t) (suite : Option test_suite_t) :
    Option test_runner_t :=
  match runner, suite with
  | some r, some s => some { r with root_suite := chain_append r.root_suite s }
  | _, _ => runner

/-- One arm of the `switch (current_case->results[i])` in
`calculate_suite_stats`: increment the field matching the status. -/
def bump_stats (st : test_stats_t) (status : test_status_t) : test_stats_t :=
  match status with
  | STATUS_SUCCESS => { st with success_count := st.success_count + 1 }
  | STATUS_UNEXPECTED_OUTPUT =>
      { st with unexpected_output_count := st.unexpected_output_count + 1 }
  | STATUS_EXPECTED_BUILD_ERROR =>
      { st with expected_build_error_count := st.expected_build_error_count + 1 }
  | STATUS_BUILD_ERROR => { st with build_error_count := st.build_error_count + 1 }
  | STATUS_EXPECTED_RUNTIME_ERROR =>
      { st with expected_runtime_error_count := st.expected_runtime_error_count + 1 }
  | STATUS_RUNTIME_ERROR => { st with runtime_error_count := st.runtime_error_count + 1 }

/-- The inner `for` loop of `calculate_suite_stats`: fold the recorded
outcomes of one case into the accumulating stats. -/
def count_results (st : test_stats_t) : List test_status_t → test_stats_t
  | [] => st
  | status :: rest => count_results (bump_stats st status) rest

/-- The `while (current_case)` loop of `calculate_suite_stats`. -/
def count_cases (st : test_stats_t) : List test_case_t → test_stats_t
  | [] => st
  | tc :: rest => count_cases (count_results st tc.results) rest

/-- Component-wise sum, the six `suite->stats.x += child->stats.x` lines. -/
def stats_add (a b : test_stats_t) : test_stats_t :=
  ⟨a.success_count + b.success_count,
   a.unexpected_output_count + b.unexpected_output_count,
   a.expected_build_error_count + b.expected_build_error_count,
   a.build_error_count + b.build_error_count,
   a.expected_runtime_error_count + b.expected_runtime_error_count,
   a.runtime_error_count + b.runtime_error_count⟩

mutual

/-- `calculate_suite_stats`: zero the stats, fold in the direct cases'
outcomes, then for each child suite recompute it recursively and add its
fresh stats component-wise. -/
def calculate_suite_stats : test_suite_t → test_suite_t
  | ⟨n, cs, ch, _⟩ =>
    let base := count_cases zero_stats cs
    let r := calc_child_suites base ch
    ⟨n, cs, r.1, r.2⟩

/-- The `while (current_suite)` child loop of `calculate_suite_stats`,
threading the accumulating parent stats. -/
def calc_child_suites (st : test_stats_t) : List test_suite_t → List test_suite_t × test_stats_t
  | [] => ([], st)
  | c :: rest =>
    let c' := calculate_suite_stats c
    let r := calc_child_suites (stats_add st c'.stats) rest
    (c' :: r.1, r.2)

end

/- Specification-side counting, following the claim's words: the number of
recorded outcomes of a given kind across every case in a suite's subtree. -/

/-- Number of occurrences of outcome `k` in one outcome log. -/
def status_count (k : test_status_t) : List test_status_t → Nat
  | [] => 0
  | x :: rest => (if x = k then 1 else 0) + status_count k rest

/-- Number of recorded outcomes of kind `k` across a list of cases. -/
def cases_count (k : test_status_t) : List test_case_t → Nat
  | [] => 0
  | tc :: rest => status_count k tc.results + cases_count k rest

mutual

/-- Number of recorded outcomes of kind `k` across every case in the
subtree of a suite: its own cases plus, recursively, the cases of every
descendant suite. -/
def subtree_count (k : test_status_t) : test_suite_t → Nat
  | ⟨_, cs, ch, _⟩ => cases_count k cs + subtree_count_list k ch

def subtree_count_list (k : test_status_t) : List test_suite_t → Nat
  | [] => 0
  | s :: rest => subtree_count k s + subtree_count_list k rest

end

/-- The statistics record a suite's subtree should carry, per the spec: each
of the six counts is the number of recorded outcomes of its kind across
every case in the subtree. -/
def spec_stats (s : test_suite_t) : test_stats_t :=
  ⟨subtree_count STATUS_SUCCESS s,
   subtree_count STATUS_UNEXPECTED_OUTPUT s,
   subtree_count STATUS_EXPECTED_BUILD_ERROR s,
   subtree_count STATUS_BUILD_ERROR s,
   subtree_count STATUS_EXPECTED_RUNTIME_ERROR s,
   subtree_count STATUS_RUNTIME_ERROR s⟩

/-- The field of a stats record that tallies outcome kind `k`. -/
def stat_field (k : test_status_t) (st : test_stats_t) : Nat :=
  match k with
  | STATUS_SUCCESS => st.success_count
  | STATUS_UNEXPECTED_OUTPUT => st.unexpected_output_count
  | STATUS_EXPECTED_BUILD_ERROR => st.expected_build_error_count
  | STATUS_BUILD_ERROR => st.build_error_count
  | STATUS_EXPECTED_RUNTIME_ERROR => st.expected_runtime_error_count
  | STATUS_RUNTIME_ERROR => st.runtime_error_count

mutual

/-- All suites of a subtree: the suite itself and, recursively, every
descendant suite. -/
def suites_of : test_suite_t → List test_suite_t
  | ⟨n, cs, ch, st⟩ => ⟨n, cs, ch, st⟩ :: suites_of_list ch

def suites_of_list : List test_suite_t → List test_suite_t
  | [] => []
  | s :: rest => suites_of s ++ suites_of_list rest

end

mutual

/-- Every suite in the subtree carries the statistics of its own subtree. -/
def stats_fresh : test_suite_t → Prop
  | ⟨n, cs, ch, st⟩ => st = spec_stats ⟨n, cs, ch, st⟩ ∧ stats_fresh_list ch

def stats_fresh_list : List test_suite_t → Prop
  | [] => True
  | s :: rest => stats_fresh s ∧ stats_fresh_list rest

end

mutual

/-- All cases in a suite's subtree, the suite's own first. -/
def subtree_cases : test_suite_t → List test_case_t
  | ⟨_, cs, ch, _⟩ => cs ++ subtree_cases_list ch

def subtree_cases_list : List test_suite_t → List test_case_t
  | [] => []
  | s :: rest => subtree_cases s ++ subtree_cases_list rest

end

/- The renderer. -/

def ANSI_RESET : String := "\x1b[0m"
def ANSI_GREEN : String := "\x1b[32m"
def ANSI_YELLOW : String := "\x1b[33m"
def ANSI_RED : String := "\x1b[31m"
def ANSI_GRAY : String := "\x1b[90m"

def get_status_color (status : test_status_t) : String :=
  match status with
  | STATUS_SUCCESS => ANSI_GREEN
  | STATUS_UNEXPECTED_OUTPUT => ANSI_YELLOW
  | STATUS_EXPECTED_BUILD_ERROR => ANSI_GRAY
  | STATUS_EXPECTED_RUNTIME_ERROR => ANSI_GRAY
  | STATUS_BUILD_ERROR => ANSI_RED
  | STATUS_RUNTIME_ERROR => ANSI_RED

def get_status_char (status : test_status_t) : Char :=
  match status with
  | STATUS_SUCCESS => 'K'
  | STATUS_UNEXPECTED_OUTPUT => 'K'
  | STATUS_EXPECTED_BUILD_ERROR => 'B'
  | STATUS_BUILD_ERROR => 'B'
  | STATUS_EXPECTED_RUNTIME_ERROR => 'R'
  | STATUS_RUNTIME_ERROR => 'R'

/-- printf's `%2d` on a non-negative count: right-aligned, minimum width 2. -/
def format_count_w2 (n : Nat) : String :=
  if n < 10 then " " ++ toString n else toString n

/-- `print_legend` (three legend lines and a blank line). -/
def print_legend : String :=
  ANSI_GREEN ++ "K" ++ ANSI_RESET ++ " - success                "
    ++ ANSI_YELLOW ++ "K" ++ ANSI_RESET ++ " - unexpected output\n"
  ++ ANSI_GRAY ++ "B" ++ ANSI_RESET ++ " - expected build error   "
    ++ ANSI_RED ++ "B" ++ ANSI_RESET ++ " - build error\n"
  ++ ANSI_GRAY ++ "R" ++ ANSI_RESET ++ " - expected runtime error "
    ++ ANSI_RED ++ "R" ++ ANSI_RESET ++ " - runtime error\n"
  ++ "\n"

/-- `print_stats`: the six counts in fixed column order, the first of each
pair width-2, each colored by kind. -/
def print_stats (st : test_stats_t) : String :=
  "K: " ++ ANSI_GREEN ++ format_count_w2 st.success_count ++ ANSI_RESET
    ++ "/" ++ ANSI_YELLOW ++ toString st.unexpected_output_count ++ ANSI_RESET
  ++ "  B: " ++ ANSI_GRAY ++ format_count_w2 st.expected_build_error_count ++ ANSI_RESET
    ++ "/" ++ ANSI_RED ++ toString st.build_error_count ++ ANSI_RESET
  ++ "  R: " ++ ANSI_GRAY ++ format_count_w2 st.expected_runtime_error_count ++ ANSI_RESET
    ++ "/" ++ ANSI_RED ++ toString st.runtime_error_count ++ ANSI_RESET

def spaces (n : Nat) : String := String.mk (List.replicate n ' ')

def take_utf8_bytes (budget : Nat) : List Char → List Char
  | [] => []
  | c :: rest =>
    if c.utf8Size ≤ budget then c :: take_utf8_bytes (budget - c.utf8Size) rest else []

/-- The `snprintf(new_prefix, 256, "%s%s ", ...)` call: writes at most 255
bytes of the formatted string.  Truncation is modelled at character
granularity (a multi-byte character straddling the limit is dropped rather
than half-written); it can only trigger at nesting depth beyond 84. -/
def snprintf256 (s : String) : String :=
  if s.utf8ByteSize ≤ 255 then s else String.mk (take_utf8_bytes 255 s.data)

/-- One colored glyph per recorded outcome, each followed by a space
(`printf("%s%c%s ", ...)`). -/
def print_result_glyphs : List test_status_t → String
  | [] => ""
  | r :: rest =>
    get_status_color r ++ String.mk [get_status_char r] ++ ANSI_RESET ++ " "
      ++ print_result_glyphs rest

/-- The case loop at the end of `print_tree_node`; `no_children` is
`suite->child_suites == NULL`. -/
def print_cases_chain : List test_case_t → String → Bool → String
  | [], _, _ => ""
  | c :: rest, npfx, no_children =>
    let is_last_case := rest.isEmpty && no_children
    npfx ++ (if is_last_case then "└" else "├") ++ "─" ++ c.name ++ ": "
      ++ print_result_glyphs c.results ++ "\n"
      ++ print_cases_chain rest npfx no_children

mutual

/-- `print_tree_node`: suite header line padded to the 50-column stats
field, then the child suites, then the suite's own cases. -/
def print_tree_node : test_suite_t → String → Bool → Nat → String
  | ⟨name, cases, children, st⟩, pfx, is_last, depth =>
    let head := pfx ++ (if is_last then "└" else "├") ++ "─" ++ name
    let pad : Int := 50 - (pfx.utf8ByteSize : Int) - (name.utf8ByteSize : Int) - 2
    let pad := if pad < 1 then 1 else pad
    let line := head ++ spaces pad.toNat ++ print_stats st ++ "\n"
    let npfx := snprintf256 (pfx ++ (if is_last then " " else "│") ++ " ")
    line ++ print_child_suites children npfx (depth + 1)
         ++ print_cases_chain cases npfx children.isEmpty

def print_child_suites : List test_suite_t → String → Nat → String
  | [], _, _ => ""
  | c :: rest, npfx, depth =>
    print_tree_node c npfx rest.isEmpty depth ++ print_child_suites rest npfx depth

end

/-- The second loop of `print_test_results`: render each top-level suite,
the last one flagged. -/
def render_suite_chain : List test_suite_t → String
  | [] => ""
  | s :: rest => print_tree_node s "" rest.isEmpty 0 ++ render_suite_chain rest

/-- `print_test_results`: early return when there is no root suite;
otherwise print the legend, recompute every top-level suite's statistics,
and render the forest.  Returns the runner (whose suites now carry the
recomputed stats) together with the text written to standard output. -/
def print_test_results (runner : test_runner_t) : test_runner_t × String :=
  match runner.root_suite with
  | [] => (runner, "")
  | l =>
    let suites := l.map calculate_suite_stats
    ({ runner with root_suite := suites }, print_legend ++ render_suite_chain suites)

/- The runner's execution pass. -/

/-- The body of the case loop in `test_runner_run`: invoke the test
function only when it is non-NULL and no outcomes were pre-recorded, and
append its result (a failed append only prints a warning, leaving the case
as the failed `test_case_add_result` left it). -/
def run_case (alloc : Bool) (tc : test_case_t) : test_case_t :=
  match tc.test_func with
  | some result =>
    if tc.result_count = 0 then (test_case_add_result alloc tc result).2 else tc
  | none => tc

/-- The guard of the execution branch of `test_runner_run`: the test
function is invoked exactly when it is non-NULL and `result_count` is 0. -/
def run_invokes (tc : test_case_t) : Bool :=
  tc.test_func.isSome && tc.result_count == 0

/-- The suite loop body of `test_runner_run`: processes only the suite's
directly owned cases, never descending into `child_suites`. -/
def run_suite (alloc : Bool) : test_suite_t → test_suite_t
  | ⟨n, cs, ch, st⟩ => ⟨n, cs.map (run_case alloc), ch, st⟩

/-- `test_runner_run`: walk the top-level suite chain executing directly
owned cases, then hand off to `print_test_results`. -/
def test_runner_run (alloc : Bool) (runner : test_runner_t) : test_runner_t × String :=
  print_test_results { runner with root_suite := runner.root_suite.map (run_suite alloc) }

/- Helper lemmas about `test_case_add_result`. -/

/-- The append either returns 0, or returns -1 with the case unchanged; the
failure happens exactly in the growth branch with a failing `realloc`. -/
theorem add_result_code_spec (alloc : Bool) (tc : test_case_t) (status : test_status_t) :
    (test_case_add_result alloc tc status).1 = 0 ∨
    ((test_case_add_result alloc tc status).1 = -1 ∧
     (test_case_add_result alloc tc status).2 = tc ∧
     alloc = false ∧ tc.result_capacity ≤ tc.result_count) := by
  unfold test_case_add_result
  split
  · next hge => cases alloc <;> simp_all
  · simp

/-- A successful append records exactly the new status at the end of the
log and increments `result_count`. -/
theorem add_result_ok_effect (alloc : Bool) (tc : test_case_t) (status : test_status_t)
    (h : (test_case_add_result alloc tc status).1 = 0) :
    (test_case_add_result alloc tc status).2.results = tc.results ++ [status] ∧
    (test_case_add_result alloc tc status).2.result_count = tc.result_count + 1 := by
  unfold test_case_add_result at h ⊢
  by_cases hge : tc.result_capacity ≤ tc.result_count
  · cases alloc
    · rw [if_pos hge] at h; simp at h
    · rw [if_pos hge]; simp
  · rw [if_neg hge]; simp

/-- With a succeeding allocator the append always returns 0. -/
theorem add_result_alloc_true_code (tc : test_case_t) (status : test_status_t) :
    (test_case_add_result true tc status).1 = 0 := by
  unfold test_case_add_result
  split <;> simp

/-- C5: `test_case_add_result` fails only when the growth `realloc` fails
(which requires `result_count` to have reached `result_capacity`), and a
failing call returns the case exactly in its prior state: `result_count`,
`result_capacity` and every recorded outcome unchanged. -/
theorem add_result_fails_only_on_oom (alloc : Bool) (tc : test_case_t) (status : test_status_t) :
    ((test_case_add_result alloc tc status).1 = -1 ↔
      alloc = false ∧ tc.result_capacity ≤ tc.result_count) ∧
    ((test_case_add_result alloc tc status).1 ≠ 0 →
      (test_case_add_result alloc tc status).2 = tc) ∧
    ((test_case_add_result alloc tc status).1 = 0 ∨
     (test_case_add_result alloc tc status).1 = -1) := by
  rcases add_result_code_spec alloc tc status with h | ⟨h1, h2, h3, h4⟩
  · refine ⟨⟨fun hx => by omega, fun ⟨ha, hc⟩ => ?_⟩, fun hx => absurd h hx, Or.inl h⟩
    subst ha
    unfold test_case_add_result at h ⊢
    simp only [ge_iff_le, hc, if_pos] at h ⊢
    simp at h
  · exact ⟨⟨fun _ => ⟨h3, h4⟩, fun _ => h1⟩, fun _ => h2, Or.inr h1⟩

/-- Witness for C5: appending to a full case (fresh case, capacity 0) with
a failing allocator returns -1 and leaves the case untouched. -/
theorem add_result_fails_only_on_oom_witness :
    (test_case_add_result false (test_case_create "t" none) STATUS_SUCCESS).1 = -1 ∧
    (test_case_add_result false (test_case_create "t" none) STATUS_SUCCESS).2
      = test_case_create "t" none := by
  have h := add_result_fails_only_on_oom false (test_case_create "t" none) STATUS_SUCCESS
  have hc : (test_case_add_result false (test_case_create "t" none) STATUS_SUCCESS).1 = -1 :=
    h.1.mpr (by decide)
  exact ⟨hc, h.2.1 (by rw [hc]; decide)⟩

/-- C9: the varargs helper rejects a NULL case and a non-positive count
with return code -1, appending nothing (the case, when present, is
returned exactly as it was): an empty batch is an error, not a no-op. -/
theorem add_results_va_rejects_null_and_nonpositive (alloc : Nat → Bool)
    (tc : Option test_case_t) (count : Int) (args : List test_status_t)
    (h : tc = none ∨ count ≤ 0) :
    test_case_add_results_va alloc tc count args = (-1, tc) := by
  cases tc with
  | none => rfl
  | some c =>
    rcases h with h | h
    · exact absurd h (by simp)
    · simp [test_case_add_results_va, h]

/-- Witness for C9: an empty batch (count 0) on a fresh case fails and
leaves the case unchanged. -/
theorem add_results_va_rejects_witness :
    test_case_add_results_va (fun _ => true) (some (test_case_create "t" none)) 0 []
      = (-1, some (test_case_create "t" none)) :=
  add_results_va_rejects_null_and_nonpositive (fun _ => true)
    (some (test_case_create "t" none)) 0 [] (Or.inr (by decide))

/-- The well-formedness invariant of a case's result log: `result_count` is
the length of the recorded-outcome prefix and never exceeds
`result_capacity` (0 ≤ result_count holds by the `Nat` model). -/
def case_wf (tc : test_case_t) : Prop :=
  tc.result_count = tc.results.length ∧ tc.result_count ≤ tc.result_capacity

/-- C10: `test_case_create` establishes the log invariant with both
`result_count` and `result_capacity` zero, and `test_case_add_result`
preserves it whether it succeeds or fails, growing the capacity from 0 to
`INITIAL_RESULT_CAPACITY` (8) and then by doubling. -/
theorem case_invariant_established_and_preserved
    (nm : String) (f : Option test_status_t) (alloc : Bool)
    (tc : test_case_t) (status : test_status_t) (h : case_wf tc) :
    (case_wf (test_case_create nm f) ∧
     (test_case_create nm f).result_count = 0 ∧
     (test_case_create nm f).result_capacity = 0) ∧
    (case_wf (test_case_add_result alloc tc status).2 ∧
     ((test_case_add_result alloc tc status).2.result_capacity = tc.result_capacity ∨
      (tc.result_capacity = 0 ∧
        (test_case_add_result alloc tc status).2.result_capacity = INITIAL_RESULT_CAPACITY) ∨
      (test_case_add_result alloc tc status).2.result_capacity = 2 * tc.result_capacity)) := by
  obtain ⟨hlen, hle⟩ := h
  refine ⟨⟨⟨rfl, Nat.le_refl 0⟩, rfl, rfl⟩, ?_⟩
  unfold test_case_add_result
  by_cases hge : tc.result_capacity ≤ tc.result_count
  · rw [if_pos hge]
    cases alloc
    · simp [case_wf, hlen, hle]; omega
    · by_cases hz : tc.result_capacity = 0 <;>
        simp [case_wf, hz, hlen, INITIAL_RESULT_CAPACITY] <;> omega
  · rw [if_neg hge]
    simp [case_wf, hlen]
    omega

/-- Witness for C10: instantiated on a fresh case with a succeeding
allocator. -/
theorem case_invariant_witness :
    case_wf (test_case_add_result true (test_case_create "w" none) STATUS_SUCCESS).2 ∧
    (test_case_add_result true (test_case_create "w" none) STATUS_SUCCESS).2.result_capacity
      = INITIAL_RESULT_CAPACITY := by
  have h := case_invariant_established_and_preserved "w" none true
    (test_case_create "w" none) STATUS_SUCCESS ⟨rfl, Nat.le_refl 0⟩
  refine ⟨h.2.1, ?_⟩
  rcases h.2.2 with hc | ⟨_, hc⟩ | hc
  · exact absurd hc (by decide)
  · exact hc
  · exact absurd hc (by decide)

/-- C7: the batch append of `[STATUS_SUCCESS, STATUS_RUNTIME_ERROR]` on an
empty case, with no allocation failure, succeeds and produces exactly the
state reached by two sequential `test_case_add_result` calls (which both
succeed), the outcome log being `[STATUS_SUCCESS, STATUS_RUNTIME_ERROR]`. -/
theorem batch_two_equals_two_singles (tc : test_case_t)
    (h1 : tc.results = []) (h2 : tc.result_count = 0) :
    test_case_add_results_va (fun _ => true) (some tc) 2
        [STATUS_SUCCESS, STATUS_RUNTIME_ERROR]
      = (0, some (test_case_add_result true
          (test_case_add_result true tc STATUS_SUCCESS).2 STATUS_RUNTIME_ERROR).2) ∧
    (test_case_add_result true tc STATUS_SUCCESS).1 = 0 ∧
    (test_case_add_result true
        (test_case_add_result true tc STATUS_SUCCESS).2 STATUS_RUNTIME_ERROR).1 = 0 ∧
    (test_case_add_result true
        (test_case_add_result true tc STATUS_SUCCESS).2 STATUS_RUNTIME_ERROR).2.results
      = [STATUS_SUCCESS, STATUS_RUNTIME_ERROR] := by
  have e1 := add_result_alloc_true_code tc STATUS_SUCCESS
  have e2 := add_result_alloc_true_code
    (test_case_add_result true tc STATUS_SUCCESS).2 STATUS_RUNTIME_ERROR
  have r1 := add_result_ok_effect true tc STATUS_SUCCESS e1
  have r2 := add_result_ok_effect true
    (test_case_add_result true tc STATUS_SUCCESS).2 STATUS_RUNTIME_ERROR e2
  refine ⟨?_, e1, e2, ?_⟩
  · simp [test_case_add_results_va, add_results_loop, e1, e2]
  · rw [r2.1, r1.1, h1]
    rfl

/-- Witness for C7: instantiated on a freshly created case. -/
theorem batch_two_equals_two_singles_witness :
    test_case_add_results_va (fun _ => true) (some (test_case_create "c" none)) 2
        [STATUS_SUCCESS, STATUS_RUNTIME_ERROR]
      = (0, some (test_case_add_result true
          (test_case_add_result true (test_case_create "c" none) STATUS_SUCCESS).2
          STATUS_RUNTIME_ERROR).2) :=
  (batch_two_equals_two_singles (test_case_create "c" none) rfl rfl).1

/-- The tail-walking append of the C sibling chains puts the new element
exactly at the end of the list. -/
theorem chain_append_eq_append {α : Type} (l : List α) (x : α) :
    chain_append l x = l ++ [x] := by
  induction l with
  | nil => rfl
  | cons y rest ih => simp [chain_append, ih]

/-- C8: `test_suite_add_child`, `test_suite_add_test_case` and
`test_runner_add_suite` are silent no-ops (the parent structure is
returned unmodified, and the functions are `void`, so no failure can be
reported) whenever either argument is NULL; with both arguments present
the new element is appended at the end of the parent's ordered list,
preserving insertion order. -/
theorem add_helpers_noop_on_null_and_append_at_end
    (p c s : test_suite_t) (tcase : test_case_t) (r : test_runner_t)
    (x : Option test_suite_t) (y : Option test_case_t) :
    test_suite_add_child none x = none ∧
    test_suite_add_child (some p) none = some p ∧
    test_suite_add_child (some p) (some c)
      = some ⟨p.name, p.test_cases, p.child_suites ++ [c], p.stats⟩ ∧
    test_suite_add_test_case none y = none ∧
    test_suite_add_test_case (some s) none = some s ∧
    test_suite_add_test_case (some s) (some tcase)
      = some ⟨s.name, s.test_cases ++ [tcase], s.child_suites, s.stats⟩ ∧
    test_runner_add_suite none x = none ∧
    test_runner_add_suite (some r) none = some r ∧
    test_runner_add_suite (some r) (some p)
      = some { r with root_suite := r.root_suite ++ [p] } := by
  cases p with | mk pn pcs pch pst =>
  cases s with | mk sn scs sch sst =>
  refine ⟨rfl, rfl, ?_, rfl, rfl, ?_, ?_, rfl, ?_⟩
  · simp [test_suite_add_child, chain_append_eq_append,
      test_suite_t.name, test_suite_t.test_cases, test_suite_t.child_suites,
      test_suite_t.stats]
  · simp [test_suite_add_test_case, chain_append_eq_append,
      test_suite_t.name, test_suite_t.test_cases, test_suite_t.child_suites,
      test_suite_t.stats]
  · cases x <;> rfl
  · simp [test_runner_add_suite, chain_append_eq_append]

/-- Failure analysis of the varargs loop: when it returns -1 there is a
first failing append at some index `k`; the returned case carries exactly
the `k` outcomes appended before it, and the `k`-th append fails from that
state. -/
theorem add_results_loop_failure (alloc : Nat → Bool) :
    ∀ (args : List test_status_t) (i : Nat) (tc : test_case_t),
      (add_results_loop alloc i tc args).1 = -1 →
      ∃ k status, k < args.length ∧ args.get? k = some status ∧
        (add_results_loop alloc i tc args).2.results = tc.results ++ args.take k ∧
        (test_case_add_result (alloc (i + k))
          (add_results_loop alloc i tc args).2 status).1 = -1 := by
  intro args
  induction args with
  | nil => intro i tc h; simp [add_results_loop] at h
  | cons status rest ih =>
    intro i tc h
    by_cases hc : (test_case_add_result (alloc i) tc status).1 = 0
    · have hloop : add_results_loop alloc i tc (status :: rest)
          = add_results_loop alloc (i + 1) (test_case_add_result (alloc i) tc status).2 rest := by
        simp [add_results_loop, hc]
      rw [hloop] at h ⊢
      obtain ⟨k, st', hk, hget, hres, hfl⟩ := ih (i + 1) _ h
      refine ⟨k + 1, st', Nat.succ_lt_succ hk, hget, ?_, ?_⟩
      · rw [hres, (add_result_ok_effect _ _ _ hc).1]
        simp
      · have hi : i + (k + 1) = (i + 1) + k := by omega
        rw [hi]; exact hfl
    · rcases add_result_code_spec (alloc i) tc status with h0 | ⟨h1, h2, _, _⟩
      · exact absurd h0 hc
      · have hloop : add_results_loop alloc i tc (status :: rest) = (-1, tc) := by
          simp [add_results_loop, hc, h2]
        rw [hloop]
        refine ⟨0, status, Nat.succ_pos _, rfl, by simp, ?_⟩
        simpa using h1

/-- C6: when the batch helper reports failure (on a non-NULL case and a
positive count), it stopped at the first failing append: some index `k`
has a failing `test_case_add_result`, the whole call returns -1, and the
outcomes appended before index `k` remain recorded in the returned case
(partial side effect despite the failure report). -/
theorem batch_append_stops_at_first_failure (alloc : Nat → Bool) (tc : test_case_t)
    (args : List test_status_t) (hne : args ≠ [])
    (hfail : (test_case_add_results_va alloc (some tc) (args.length : Int) args).1 = -1) :
    ∃ k status tc', k < args.length ∧ args.get? k = some status ∧
      test_case_add_results_va alloc (some tc) (args.length : Int) args = (-1, some tc') ∧
      tc'.results = tc.results ++ args.take k ∧
      (test_case_add_result (alloc k) tc' status).1 = -1 := by
  have hpos : ¬((args.length : Int) ≤ 0) := by
    cases args with
    | nil => exact absurd rfl hne
    | cons a l => simp
  simp only [test_case_add_results_va, if_neg hpos, Int.toNat_natCast,
    List.take_length] at hfail ⊢
  obtain ⟨k, status, hk, hget, hres, hfl⟩ :=
    add_results_loop_failure alloc args 0 tc hfail
  exact ⟨k, status, (add_results_loop alloc 0 tc args).2, hk, hget,
    by rw [hfail], hres, by simpa using hfl⟩

/-- Witness for C6: a case holding 7 outcomes with capacity 8 receives a
batch of two appends under a failing allocator; the first append fits
without growth and sticks, the second needs growth and fails, so the call
returns -1 with the first outcome retained. -/
theorem batch_append_partial_failure_witness :
    ∃ k status tc',
      k < ([STATUS_BUILD_ERROR, STATUS_RUNTIME_ERROR] : List test_status_t).length ∧
      ([STATUS_BUILD_ERROR, STATUS_RUNTIME_ERROR] : List test_status_t).get? k = some status ∧
      test_case_add_results_va (fun _ => false)
          (some ⟨"t", none, List.replicate 7 STATUS_SUCCESS, 7, 8⟩)
          (([STATUS_BUILD_ERROR, STATUS_RUNTIME_ERROR] : List test_status_t).length : Int)
          [STATUS_BUILD_ERROR, STATUS_RUNTIME_ERROR] = (-1, some tc') ∧
      tc'.results = (⟨"t", none, List.replicate 7 STATUS_SUCCESS, 7, 8⟩ : test_case_t).results
        ++ ([STATUS_BUILD_ERROR, STATUS_RUNTIME_ERROR] : List test_status_t).take k ∧
      (test_case_add_result false tc' status).1 = -1 :=
  batch_append_stops_at_first_failure (fun _ => false)
    ⟨"t", none, List.replicate 7 STATUS_SUCCESS, 7, 8⟩
    [STATUS_BUILD_ERROR, STATUS_RUNTIME_ERROR] (by decide) (by decide)

/- Field-projection lemmas connecting the imperative fold of
`calculate_suite_stats` with the specification counts. -/

theorem stat_field_bump (k : test_status_t) (st : test_stats_t) (x : test_status_t) :
    stat_field k (bump_stats st x) = stat_field k st + (if x = k then 1 else 0) := by
  cases k <;> cases x <;> simp [bump_stats, stat_field]

theorem stat_field_zero (k : test_status_t) : stat_field k zero_stats = 0 := by
  cases k <;> rfl

theorem stat_field_add (k : test_status_t) (a b : test_stats_t) :
    stat_field k (stats_add a b) = stat_field k a + stat_field k b := by
  cases k <;> rfl

theorem stat_field_spec_stats (k : test_status_t) (s : test_suite_t) :
    stat_field k (spec_stats s) = subtree_count k s := by
  cases k <;> rfl

theorem stats_eq_of_fields {a b : test_stats_t}
    (h : ∀ k, stat_field k a = stat_field k b) : a = b := by
  ext
  · exact h STATUS_SUCCESS
  · exact h STATUS_UNEXPECTED_OUTPUT
  · exact h STATUS_EXPECTED_BUILD_ERROR
  · exact h STATUS_BUILD_ERROR
  · exact h STATUS_EXPECTED_RUNTIME_ERROR
  · exact h STATUS_RUNTIME_ERROR

theorem stat_field_count_results (k : test_status_t) :
    ∀ (l : List test_status_t) (st : test_stats_t),
      stat_field k (count_results st l) = stat_field k st + status_count k l := by
  intro l
  induction l with
  | nil => intro st; simp [count_results, status_count]
  | cons x rest ih =>
    intro st
    rw [count_results, ih, stat_field_bump, status_count]
    omega

theorem stat_field_count_cases (k : test_status_t) :
    ∀ (cs : List test_case_t) (st : test_stats_t),
      stat_field k (count_cases st cs) = stat_field k st + cases_count k cs := by
  intro cs
  induction cs with
  | nil => intro st; simp [count_cases, cases_count]
  | cons tc rest ih =>
    intro st
    rw [count_cases, ih, stat_field_count_results, cases_count]
    omega

mutual

/-- The recomputed statistics of a suite tally its subtree's recorded
outcomes, kind by kind. -/
theorem calc_stats_field (s : test_suite_t) (k : test_status_t) :
    stat_field k (calculate_suite_stats s).stats = subtree_count k s := by
  cases s with
  | mk n cs ch st0 =>
    rw [calculate_suite_stats]
    show stat_field k (calc_child_suites (count_cases zero_stats cs) ch).2
      = subtree_count k ⟨n, cs, ch, st0⟩
    rw [calc_children_field ch (count_cases zero_stats cs) k,
        stat_field_count_cases k cs zero_stats, stat_field_zero, subtree_count]
    omega

theorem calc_children_field (l : List test_suite_t) (st : test_stats_t) (k : test_status_t) :
    stat_field k (calc_child_suites st l).2 = stat_field k st + subtree_count_list k l := by
  cases l with
  | nil => simp [calc_child_suites, subtree_count_list]
  | cons c rest =>
    rw [calc_child_suites]
    show stat_field k (calc_child_suites
        (stats_add st (calculate_suite_stats c).stats) rest).2
      = stat_field k st + subtree_count_list k (c :: rest)
    rw [calc_children_field rest (stats_add st (calculate_suite_stats c).stats) k,
        stat_field_add, calc_stats_field c k, subtree_count_list]
    omega

end

/-- The child loop of `calculate_suite_stats` recomputes each child in
order, independently of the accumulating parent stats. -/
theorem calc_children_fst (st : test_stats_t) (l : List test_suite_t) :
    (calc_child_suites st l).1 = l.map calculate_suite_stats := by
  induction l generalizing st with
  | nil => rfl
  | cons c rest ih => simp [calc_child_suites, ih]

/-- `calculate_suite_stats` only rewrites statistics: name and cases are
untouched and the children are recursively recomputed in order. -/
theorem calc_shape (s : test_suite_t) :
    calculate_suite_stats s
      = ⟨s.name, s.test_cases, s.child_suites.map calculate_suite_stats,
         (calculate_suite_stats s).stats⟩ := by
  cases s with
  | mk n cs ch st0 =>
    rw [calculate_suite_stats]
    show (⟨n, cs, (calc_child_suites (count_cases zero_stats cs) ch).1,
           (calc_child_suites (count_cases zero_stats cs) ch).2⟩ : test_suite_t) = _
    rw [calc_children_fst]
    rfl

theorem calc_test_cases (s : test_suite_t) :
    (calculate_suite_stats s).test_cases = s.test_cases := by
  rw [calc_shape]; rfl

theorem calc_child_suites_eq (s : test_suite_t) :
    (calculate_suite_stats s).child_suites = s.child_suites.map calculate_suite_stats := by
  rw [calc_shape]; rfl

mutual

/-- Recomputation does not change the subtree's recorded outcomes, so the
specification counts are invariant under it. -/
theorem subtree_count_calc (s : test_suite_t) (k : test_status_t) :
    subtree_count k (calculate_suite_stats s) = subtree_count k s := by
  cases s with
  | mk n cs ch st0 =>
    rw [calc_shape]
    show subtree_count k ⟨_, _, _, _⟩ = _
    rw [subtree_count, subtree_count]
    show cases_count k (test_suite_t.test_cases ⟨n, cs, ch, st0⟩)
        + subtree_count_list k ((test_suite_t.child_suites ⟨n, cs, ch, st0⟩).map
            calculate_suite_stats) = _
    rw [subtree_count_list_map_calc]
    rfl

theorem subtree_count_list_map_calc (l : List test_suite_t) (k : test_status_t) :
    subtree_count_list k (l.map calculate_suite_stats) = subtree_count_list k l := by
  cases l with
  | nil => rfl
  | cons s rest =>
    show subtree_count_list k (calculate_suite_stats s :: rest.map calculate_suite_stats) = _
    rw [subtree_count_list, subtree_count_calc s k, subtree_count_list_map_calc rest k,
        subtree_count_list]

end

mutual

/-- After a recompute pass every suite of the subtree carries exactly its
own subtree's outcome counts. -/
theorem calc_stats_fresh (s : test_suite_t) : stats_fresh (calculate_suite_stats s) := by
  cases s with
  | mk n cs ch st0 =>
    rw [calc_shape]
    show stats_fresh ⟨test_suite_t.name ⟨n, cs, ch, st0⟩, _, _, _⟩
    rw [stats_fresh]
    constructor
    · refine stats_eq_of_fields fun k => ?_
      rw [stat_field_spec_stats]
      show stat_field k (calculate_suite_stats ⟨n, cs, ch, st0⟩).stats = _
      rw [calc_stats_field]
      show subtree_count k ⟨n, cs, ch, st0⟩
        = subtree_count k ⟨test_suite_t.name ⟨n, cs, ch, st0⟩,
            test_suite_t.test_cases ⟨n, cs, ch, st0⟩,
            (test_suite_t.child_suites ⟨n, cs, ch, st0⟩).map calculate_suite_stats,
            (calculate_suite_stats ⟨n, cs, ch, st0⟩).stats⟩
      rw [subtree_count, subtree_count]
      show cases_count k cs + subtree_count_list k ch
        = cases_count k cs + subtree_count_list k (ch.map calculate_suite_stats)
      rw [subtree_count_list_map_calc]
    · show stats_fresh_list ((test_suite_t.child_suites ⟨n, cs, ch, st0⟩).map
        calculate_suite_stats)
      exact calc_stats_fresh_list ch

theorem calc_stats_fresh_list (l : List test_suite_t) :
    stats_fresh_list (l.map calculate_suite_stats) := by
  cases l with
  | nil => trivial
  | cons s rest =>
    show stats_fresh_list (calculate_suite_stats s :: rest.map calculate_suite_stats)
    rw [stats_fresh_list]
    exact ⟨calc_stats_fresh s, calc_stats_fresh_list rest⟩

end

mutual

/-- Freshness of a suite's statistics propagates to every suite of its
subtree. -/
theorem stats_fresh_all (s : test_suite_t) (h : stats_fresh s) :
    ∀ t ∈ suites_of s, t.stats = spec_stats t := by
  cases s with
  | mk n cs ch st0 =>
    rw [stats_fresh] at h
    intro t ht
    rw [suites_of] at ht
    rcases List.mem_cons.mp ht with rfl | hmem
    · exact h.1
    · exact stats_fresh_all_list ch h.2 t hmem

theorem stats_fresh_all_list (l : List test_suite_t) (h : stats_fresh_list l) :
    ∀ t ∈ suites_of_list l, t.stats = spec_stats t := by
  cases l with
  | nil => intro t ht; rw [suites_of_list] at ht; cases ht
  | cons s rest =>
    rw [stats_fresh_list] at h
    intro t ht
    rw [suites_of_list] at ht
    rcases List.mem_append.mp ht with hmem | hmem
    · exact stats_fresh_all s h.1 t hmem
    · exact stats_fresh_all_list rest h.2 t hmem

end

/-- C1: after a recompute pass over a root suite, every suite in the
recomputed tree carries statistics in which each of the six counts equals
the number of recorded outcomes of that kind across every case in that
suite's subtree (its own cases plus, recursively, the cases of every
descendant suite). -/
theorem recompute_makes_every_suite_stats_correct (root : test_suite_t)
    (t : test_suite_t) (h : t ∈ suites_of (calculate_suite_stats root)) :
    t.stats = spec_stats t :=
  stats_fresh_all (calculate_suite_stats root) (calc_stats_fresh root) t h

/-- Witness for C1: the recomputed root of a one-suite tree with one
recorded outcome carries its own subtree's counts. -/
theorem recompute_stats_correct_witness :
    (calculate_suite_stats ⟨"S", [⟨"c", none, [STATUS_SUCCESS], 1, 8⟩], [], zero_stats⟩).stats
      = spec_stats
          (calculate_suite_stats ⟨"S", [⟨"c", none, [STATUS_SUCCESS], 1, 8⟩], [], zero_stats⟩) :=
  recompute_makes_every_suite_stats_correct
    ⟨"S", [⟨"c", none, [STATUS_SUCCESS], 1, 8⟩], [], zero_stats⟩
    (calculate_suite_stats ⟨"S", [⟨"c", none, [STATUS_SUCCESS], 1, 8⟩], [], zero_stats⟩)
    (List.Mem.head _)

/-- Two suites are equal when all four components agree. -/
theorem suite_eq_of_parts (a b : test_suite_t)
    (h1 : a.name = b.name) (h2 : a.test_cases = b.test_cases)
    (h3 : a.child_suites = b.child_suites) (h4 : a.stats = b.stats) : a = b := by
  cases a with
  | mk an acs ach ast =>
    cases b with
    | mk bn bcs bch bst =>
      simp only [test_suite_t.name, test_suite_t.test_cases, test_suite_t.child_suites,
        test_suite_t.stats] at h1 h2 h3 h4
      rw [h1, h2, h3, h4]

theorem calc_name (s : test_suite_t) :
    (calculate_suite_stats s).name = s.name := by
  rw [calc_shape]; rfl

mutual

/-- Recomputing statistics is idempotent: a second pass rewrites every
stats field with the same value. -/
theorem calc_idem (s : test_suite_t) :
    calculate_suite_stats (calculate_suite_stats s) = calculate_suite_stats s := by
  cases s with
  | mk n cs ch st0 =>
    refine suite_eq_of_parts _ _ ?_ ?_ ?_ ?_
    · rw [calc_name]
    · rw [calc_test_cases]
    · rw [calc_child_suites_eq, calc_child_suites_eq]
      exact calc_idem_list ch
    · refine stats_eq_of_fields fun k => ?_
      rw [calc_stats_field, calc_stats_field, subtree_count_calc]

theorem calc_idem_list (l : List test_suite_t) :
    (l.map calculate_suite_stats).map calculate_suite_stats
      = l.map calculate_suite_stats := by
  cases l with
  | nil => rfl
  | cons s rest =>
    simp only [List.map_cons]
    rw [calc_idem s]
    show _ :: (rest.map calculate_suite_stats).map calculate_suite_stats = _
    rw [calc_idem_list rest]

end

/-- C4 (amended): `print_test_results` is idempotent on the runner state,
and in particular rendering the same unmodified tree twice produces
byte-identical output both times; after the first call the suites' stats
fields hold the freshly recomputed values, so a second render leaves them
unchanged. -/
theorem print_results_idempotent (runner : test_runner_t) :
    print_test_results (print_test_results runner).1 = print_test_results runner ∧
    (print_test_results (print_test_results runner).1).2 = (print_test_results runner).2 := by
  suffices h : print_test_results (print_test_results runner).1 = print_test_results runner by
    exact ⟨h, by rw [h]⟩
  cases runner with
  | mk root gs =>
    cases root with
    | nil => rfl
    | cons s rest =>
      show print_test_results
          ⟨(s :: rest).map calculate_suite_stats, gs⟩ = _
      have hmap : (s :: rest).map calculate_suite_stats
          = calculate_suite_stats s :: rest.map calculate_suite_stats := rfl
      rw [print_test_results, print_test_results]
      simp only [hmap]
      rw [← hmap, calc_idem_list (s :: rest)]

/-- Counterexample to C4 as stated: on a tree whose stats are stale (a
fresh suite holding one recorded Success outcome still has the all-zero
stats it was created with), `print_test_results` changes the suite's
`stats` field — the recompute pass inside rendering mutates it from the
all-zero record to the true counts. -/
theorem print_results_mutates_stale_stats :
    ∃ s s', (⟨[⟨"S", [⟨"c", none, [STATUS_SUCCESS], 1, 8⟩], [], zero_stats⟩], zero_stats⟩ :
        test_runner_t).root_suite.get? 0 = some s ∧
      (print_test_results
        ⟨[⟨"S", [⟨"c", none, [STATUS_SUCCESS], 1, 8⟩], [], zero_stats⟩],
         zero_stats⟩).1.root_suite.get? 0 = some s' ∧
      s'.stats ≠ s.stats := by
  refine ⟨_, _, rfl, rfl, ?_⟩
  intro h
  have := congrArg test_stats_t.success_count h
  simp [print_test_results, calculate_suite_stats, calc_child_suites, count_cases,
    count_results, bump_stats, zero_stats, test_suite_t.stats] at this

/-- The suite loop of `test_runner_run` maps each directly owned case
through the execution branch and touches nothing else. -/
theorem run_suite_test_cases (alloc : Bool) (s : test_suite_t) :
    (run_suite alloc s).test_cases = s.test_cases.map (run_case alloc) := by
  cases s with
  | mk n cs ch st0 => rfl

theorem run_suite_child_suites (alloc : Bool) (s : test_suite_t) :
    (run_suite alloc s).child_suites = s.child_suites := by
  cases s with
  | mk n cs ch st0 => rfl

/-- On a runner with at least one suite, the root chain after
`test_runner_run` is the execution pass followed by the recompute pass. -/
theorem run_root_suites (alloc : Bool) (runner : test_runner_t)
    (h : runner.root_suite ≠ []) :
    (test_runner_run alloc runner).1.root_suite
      = (runner.root_suite.map (run_suite alloc)).map calculate_suite_stats := by
  cases runner with
  | mk root gs =>
    cases root with
    | nil => exact absurd rfl h
    | cons s rest => rfl

mutual

/-- Recomputation preserves every case of the subtree. -/
theorem subtree_cases_calc (s : test_suite_t) :
    subtree_cases (calculate_suite_stats s) = subtree_cases s := by
  cases s with
  | mk n cs ch st0 =>
    rw [calc_shape]
    show subtree_cases ⟨_, _, _, _⟩ = _
    rw [subtree_cases, subtree_cases]
    show cs ++ subtree_cases_list (ch.map calculate_suite_stats)
      = cs ++ subtree_cases_list ch
    rw [subtree_cases_list_map_calc ch]

theorem subtree_cases_list_map_calc (l : List test_suite_t) :
    subtree_cases_list (l.map calculate_suite_stats) = subtree_cases_list l := by
  cases l with
  | nil => rfl
  | cons s rest =>
    show subtree_cases_list (calculate_suite_stats s :: rest.map calculate_suite_stats) = _
    rw [subtree_cases_list, subtree_cases_calc s, subtree_cases_list_map_calc rest,
        subtree_cases_list]

end

/-- C2: after `test_runner_run`, a case owned directly by a top-level
suite appears passed through the execution branch; a case with a test
function and no pre-recorded outcomes (under a succeeding allocator)
holds exactly the one outcome its function returned and was invoked,
while a case with pre-recorded outcomes is returned bit-identical and its
function is never invoked. -/
theorem run_executes_fresh_and_skips_preloaded
    (alloc : Bool) (runner : test_runner_t) (i j : Nat)
    (suite : test_suite_t) (tc : test_case_t)
    (hs : runner.root_suite.get? i = some suite)
    (ht : suite.test_cases.get? j = some tc) :
    ∃ suite', (test_runner_run alloc runner).1.root_suite.get? i = some suite' ∧
      suite'.test_cases.get? j = some (run_case alloc tc) ∧
      (∀ result, tc.test_func = some result → tc.results = [] → tc.result_count = 0 →
        alloc = true →
        (run_case alloc tc).results = [result] ∧
        (run_case alloc tc).result_count = 1 ∧ run_invokes tc = true) ∧
      (tc.result_count ≠ 0 → run_case alloc tc = tc ∧ run_invokes tc = false) := by
  have hne : runner.root_suite ≠ [] := by
    intro hnil
    rw [hnil] at hs
    cases hs
  refine ⟨calculate_suite_stats (run_suite alloc suite), ?_, ?_, ?_, ?_⟩
  · rw [run_root_suites alloc runner hne, List.get?_map, List.get?_map, hs]
    rfl
  · rw [calc_test_cases, run_suite_test_cases, List.get?_map, ht]
    rfl
  · intro result hf hres hcount halloc
    subst halloc
    have hcode := add_result_alloc_true_code tc result
    have heff := add_result_ok_effect true tc result hcode
    have hrc : run_case true tc = (test_case_add_result true tc result).2 := by
      simp [run_case, hf, hcount]
    refine ⟨?_, ?_, ?_⟩
    · rw [hrc, heff.1, hres]
      rfl
    · rw [hrc, heff.2, hcount]
    · simp [run_invokes, hf, hcount]
  · intro hcount
    constructor
    · cases htf : tc.test_func <;> simp [run_case, htf, hcount]
    · simp [run_invokes, hcount]

/-- Witness for C2: a one-suite runner whose single fresh case (function
returning Success) ends up with exactly that one outcome. -/
theorem run_executes_fresh_witness :
    ∃ suite', (test_runner_run true
        ⟨[⟨"S", [⟨"c", some STATUS_SUCCESS, [], 0, 0⟩], [], zero_stats⟩],
         zero_stats⟩).1.root_suite.get? 0 = some suite' ∧
      suite'.test_cases.get? 0
        = some (run_case true ⟨"c", some STATUS_SUCCESS, [], 0, 0⟩) ∧
      (∀ result, (⟨"c", some STATUS_SUCCESS, [], 0, 0⟩ : test_case_t).test_func = some result →
        (⟨"c", some STATUS_SUCCESS, [], 0, 0⟩ : test_case_t).results = [] →
        (⟨"c", some STATUS_SUCCESS, [], 0, 0⟩ : test_case_t).result_count = 0 →
        true = true →
        (run_case true ⟨"c", some STATUS_SUCCESS, [], 0, 0⟩).results = [result] ∧
        (run_case true ⟨"c", some STATUS_SUCCESS, [], 0, 0⟩).result_count = 1 ∧
        run_invokes ⟨"c", some STATUS_SUCCESS, [], 0, 0⟩ = true) ∧
      ((⟨"c", some STATUS_SUCCESS, [], 0, 0⟩ : test_case_t).result_count ≠ 0 →
        run_case true ⟨"c", some STATUS_SUCCESS, [], 0, 0⟩
          = ⟨"c", some STATUS_SUCCESS, [], 0, 0⟩ ∧
        run_invokes ⟨"c", some STATUS_SUCCESS, [], 0, 0⟩ = false) :=
  run_executes_fresh_and_skips_preloaded true
    ⟨[⟨"S", [⟨"c", some STATUS_SUCCESS, [], 0, 0⟩], [], zero_stats⟩], zero_stats⟩
    0 0 ⟨"S", [⟨"c", some STATUS_SUCCESS, [], 0, 0⟩], [], zero_stats⟩
    ⟨"c", some STATUS_SUCCESS, [], 0, 0⟩ rfl rfl

/-- C3: `test_runner_run` executes functions only in cases directly owned
by top-level suites: after a run, a top-level suite's own cases went
through the execution branch, while the multiset of cases of all its
descendant suites is exactly as before (logs unchanged, functions never
invoked) — even though the statistics pass inside the run did descend into
the children (the resulting suite's subtree statistics are fresh). -/
theorem run_never_executes_descendant_cases
    (alloc : Bool) (runner : test_runner_t) (i : Nat) (suite : test_suite_t)
    (hs : runner.root_suite.get? i = some suite) :
    ∃ suite', (test_runner_run alloc runner).1.root_suite.get? i = some suite' ∧
      suite'.test_cases = suite.test_cases.map (run_case alloc) ∧
      subtree_cases_list suite'.child_suites = subtree_cases_list suite.child_suites ∧
      stats_fresh suite' := by
  have hne : runner.root_suite ≠ [] := by
    intro hnil
    rw [hnil] at hs
    cases hs
  refine ⟨calculate_suite_stats (run_suite alloc suite), ?_, ?_, ?_, ?_⟩
  · rw [run_root_suites alloc runner hne, List.get?_map, List.get?_map, hs]
    rfl
  · rw [calc_test_cases, run_suite_test_cases]
  · rw [calc_child_suites_eq, run_suite_child_suites,
        subtree_cases_list_map_calc]
  · exact calc_stats_fresh (run_suite alloc suite)

/-- Witness for C3: a runner whose top-level suite has a child suite with
a fresh case (function present, log empty); the child's case list is
untouched by the run while the top-level suite's stats become fresh. -/
theorem run_never_executes_descendant_witness :
    ∃ suite', (test_runner_run true
        ⟨[⟨"Top", [], [⟨"Child", [⟨"d", some STATUS_RUNTIME_ERROR, [], 0, 0⟩], [],
            zero_stats⟩], zero_stats⟩], zero_stats⟩).1.root_suite.get? 0 = some suite' ∧
      suite'.test_cases
        = (⟨"Top", [], [⟨"Child", [⟨"d", some STATUS_RUNTIME_ERROR, [], 0, 0⟩], [],
            zero_stats⟩], zero_stats⟩ : test_suite_t).test_cases.map (run_case true) ∧
      subtree_cases_list suite'.child_suites
        = subtree_cases_list (⟨"Top", [], [⟨"Child",
            [⟨"d", some STATUS_RUNTIME_ERROR, [], 0, 0⟩], [], zero_stats⟩],
            zero_stats⟩ : test_suite_t).child_suites ∧
      stats_fresh suite' :=
  run_never_executes_descendant_cases true
    ⟨[⟨"Top", [], [⟨"Child", [⟨"d", some STATUS_RUNTIME_ERROR, [], 0, 0⟩], [],
        zero_stats⟩], zero_stats⟩], zero_stats⟩
    0 ⟨"Top", [], [⟨"Child", [⟨"d", some STATUS_RUNTIME_ERROR, [], 0, 0⟩], [],
        zero_stats⟩], zero_stats⟩ rfl
